import Mathlib

/-!
Verification of `it_chatbot.py` (Azure OpenAI customer-support chatbot).

Shallow embedding of the program's data model and operations:
strings are Lean `String`; Python `str.lower` / `str.capitalize` are
modelled on ASCII via `Char.toLower` / `Char.toUpper` (all data in the
program is ASCII apart from the arrow character, which both languages
leave unchanged); Python substring containment (`a in b`) is modelled by
an explicit contiguous-sublist scan on the character lists; the two
remote completion calls are modelled by an oracle `Nat → Except String RespMsg`
giving, for each call index within a turn, either a response or a raised
exception; timestamps produced by `datetime.now()` are modelled by an
oracle `Nat → String` indexed by the current log length.  Tool-call
argument payloads (`json.loads(tc.function.arguments)`) are modelled as
already-decoded flat key/value lists, with Python's `dict.get(k, "")`
modelled by `argGet`.
-/

/-- Python `str.lower()` restricted to ASCII case mapping. -/
def pyLower (s : String) : String := ⟨s.data.map Char.toLower⟩

/-- Python `str.capitalize()` restricted to ASCII case mapping. -/
def pyCapitalize (s : String) : String :=
  match s.data with
  | [] => ""
  | c :: cs => ⟨Char.toUpper c :: cs.map Char.toLower⟩

/-- Does `hay` start with `needle`? (helper for substring containment). -/
def leadsWith : List Char → List Char → Bool
  | [], _ => true
  | _ :: _, [] => false
  | c :: cs, h :: hs => c == h && leadsWith cs hs

/-- Contiguous-sublist containment on character lists. -/
def hasSub (needle : List Char) : List Char → Bool
  | [] => needle.isEmpty
  | h :: hs => leadsWith needle (h :: hs) || hasSub needle hs

/-- Python `needle in hay` for strings (contiguous substring containment). -/
def pyContains (needle hay : String) : Bool := hasSub needle.data hay.data

/-- Python truthy-or on an optional string: `c or d` where `None` and `""`
are falsy. -/
def pyOr (c : Option String) (d : String) : String :=
  match c with
  | some s => if s = "" then d else s
  | none => d

/-- One FAQ entry of the mock data (`faq_data` rows). -/
structure FaqEntry where
  question : String
  answer : String
deriving DecidableEq

/-- `faq_data` from the source. -/
def faq_data : List FaqEntry :=
  [ ⟨ "How can I reset my password?", "Go to Account Settings → Security → Reset Password." ⟩,
    ⟨ "What is the refund policy?", "Refunds are available within 30 days of purchase." ⟩,
    ⟨ "Do you offer international shipping?", "Yes, we ship worldwide." ⟩ ]

/-- One order record of the mock data (`order_data` rows). -/
structure OrderRecord where
  order_id : String
  status : String
  eta : String
deriving DecidableEq

/-- `order_data` from the source. -/
def order_data : List OrderRecord :=
  [ ⟨ "ORD123", "Shipped", "2025-10-28" ⟩,
    ⟨ "ORD124", "Delivered", "2025-10-22" ⟩,
    ⟨ "ORD125", "Processing", "2025-10-27" ⟩ ]

/-- The per-entry match test of `lookup_faq`:
`query.lower() in faq["question"].lower() or query.lower() in faq["answer"].lower()`. -/
def faqMatch (query : String) (f : FaqEntry) : Bool :=
  pyContains (pyLower query) (pyLower f.question) || pyContains (pyLower query) (pyLower f.answer)

/-- The loop of `lookup_faq` over a row list. -/
def lookupFaqGo (query : String) : List FaqEntry → String
  | [] => "Sorry, I couldn\x27t find that information."
  | f :: rest => if faqMatch query f then f.answer else lookupFaqGo query rest

/-- `lookup_faq` from the source. -/
def lookup_faq (query : String) : String := lookupFaqGo query faq_data

/-- The per-record match test of `get_order_status`:
`order["order_id"].lower() == order_id.lower()`. -/
def orderMatch (order_id : String) (o : OrderRecord) : Bool :=
  pyLower o.order_id == pyLower order_id

/-- The loop of `get_order_status` over a row list. -/
def getOrderStatusGo (order_id : String) : List OrderRecord → String
  | [] => "Order ID " ++ order_id ++ " not found."
  | o :: rest =>
      if orderMatch order_id o then
        "Order " ++ order_id ++ " is " ++ o.status ++ " and will arrive by " ++ o.eta ++ "."
      else getOrderStatusGo order_id rest

/-- `get_order_status` from the source. -/
def get_order_status (order_id : String) : String := getOrderStatusGo order_id order_data

/-- One declarative tool descriptor of the `tools` schema (name and
required parameter names; description and types carry no behavior). -/
structure ToolSpec where
  name : String
  required : List String
deriving DecidableEq

/-- The `tools` catalog from the source. -/
def tools : List ToolSpec :=
  [ ⟨ "lookup_faq", ["query"] ⟩, ⟨ "get_order_status", ["order_id"] ⟩ ]

/-- A tool-call request produced by the completion service
(`tc.id`, `tc.function.name`, decoded `tc.function.arguments`). -/
structure ToolCall where
  id : String
  name : String
  args : List (String × String)
deriving DecidableEq

/-- A completion-response message: optional text content and the
(possibly empty) list of requested tool calls; `None` and `[]` are both
modelled by `[]`, matching `if tool_calls:` truthiness. -/
structure RespMsg where
  content : Option String
  toolCalls : List ToolCall
deriving DecidableEq

/-- A message of a transcript or of a request payload: a plain
role/content dict, the model's tool-call-bearing response object, or the
synthetic tool-result dict `{"role": "tool", "tool_call_id": _, "content": _}`. -/
inductive Msg where
  | plain : String → String → Msg
  | model : RespMsg → Msg
  | toolMsg : String → String → Msg
deriving DecidableEq

/-- One record written by `log_conversation` (timestamp, role, content). -/
structure LogEntry where
  ts : String
  role : String
  content : String
deriving DecidableEq

/-- The line `log_conversation` writes for an entry:
`f"[{ts}] {role.capitalize()}: {content}"`. -/
def logLine (e : LogEntry) : String :=
  "[" ++ e.ts ++ "] " ++ pyCapitalize e.role ++ ": " ++ e.content

/-- Session state: `st.session_state.messages`,
`st.session_state.display_messages`, and the conversation-log file
contents (as structured entries; the file holds `logLine` of each). -/
structure ChatState where
  messages : List Msg
  display : List Msg
  log : List LogEntry
deriving DecidableEq

/-- A completion request issued to the service: its message list and
whether the tool catalog was attached (`tools=tools` vs omitted). -/
structure Request where
  reqMessages : List Msg
  withTools : Bool
deriving DecidableEq

/-- Outcome of one user turn: the new session state, the completion
requests issued (in order), and the error surfaced via `st.error`
(`none` when the turn completed normally). -/
structure TurnOut where
  state : ChatState
  reqs : List Request
  uiError : Option String
deriving DecidableEq

/-- Python `args.get(key, "")` on a decoded flat argument object. -/
def argGet (args : List (String × String)) (k : String) : String :=
  match args.lookup k with
  | some v => v
  | none => ""

/-- The tool-dispatch of the source: resolve `func_name` against the two
known tools, defaulting missing argument keys to `""`; unknown names
yield the fixed sentinel. -/
def runTool (tc : ToolCall) : String :=
  if tc.name = "lookup_faq" then lookup_faq (argGet tc.args "query")
  else if tc.name = "get_order_status" then get_order_status (argGet tc.args "order_id")
  else "Tool not implemented."

/-- Append a role/content message to both transcripts and the log
(the `messages.append` / `display_messages.append` / `log_conversation`
triple of the source); the timestamp oracle is indexed by the current
log length. -/
def appendBoth (s : ChatState) (role content : String) (ts : Nat → String) : ChatState :=
  { messages := s.messages ++ [Msg.plain role content],
    display := s.display ++ [Msg.plain role content],
    log := s.log ++ [⟨ ts s.log.length, role, content ⟩] }

/-- Append only a log entry (the `log_conversation("error", str(e))` in
the exception handler touches neither transcript). -/
def logOnly (s : ChatState) (role content : String) (ts : Nat → String) : ChatState :=
  { s with log := s.log ++ [⟨ ts s.log.length, role, content ⟩] }

/-- The `for tc in tool_calls:` loop.  `n` is the index of the next
completion call within the turn (consulting the oracle); per tool call it
dispatches the tool, builds `follow_up_messages` from the *current*
session transcript plus the model's tool-call-bearing message plus one
tool-result message, issues the follow-up request without the tool
catalog, and on success appends the adopted reply
(`final_msg.content or result`) to both transcripts and the log.  A
raised follow-up call aborts the loop, logging one error entry. -/
def toolLoop (oracle : Nat → Except String RespMsg) (ts : Nat → String) (message : RespMsg) :
    List ToolCall → Nat → ChatState → ChatState × List Request × Option String
  | [], _, s => (s, [], none)
  | tc :: rest, n, s =>
      let result := runTool tc
      let req : Request := ⟨ s.messages ++ [Msg.model message, Msg.toolMsg tc.id result], false ⟩
      match oracle n with
      | Except.error e => (logOnly s "error" e ts, [req], some e)
      | Except.ok second =>
          let reply := pyOr second.content result
          let s2 := appendBoth s "assistant" reply ts
          let out := toolLoop oracle ts message rest (n + 1) s2
          (out.1, req :: out.2.1, out.2.2)

/-- One user turn (`if user_input:` block): append the user message to
both transcripts and the log, issue the first completion request with
the tool catalog attached, then either run the tool loop, adopt the
plain reply (`message.content or "No response."`), or on a raised call
log one error entry and surface the error. -/
def runTurn (oracle : Nat → Except String RespMsg) (ts : Nat → String)
    (userInput : String) (s0 : ChatState) : TurnOut :=
  let s1 := appendBoth s0 "user" userInput ts
  let req0 : Request := ⟨ s1.messages, true ⟩
  match oracle 0 with
  | Except.error e => ⟨ logOnly s1 "error" e ts, [req0], some e ⟩
  | Except.ok message =>
      match message.toolCalls with
      | [] =>
          let reply := pyOr message.content "No response."
          ⟨ appendBoth s1 "assistant" reply ts, [req0], none ⟩
      | tc :: rest =>
          let out := toolLoop oracle ts message (tc :: rest) 1 s1
          ⟨ out.1, req0 :: out.2.1, out.2.2 ⟩

/-- The seeded session state: `messages` starts with the system
directive and the example user/assistant exchange, `display_messages`
starts empty, the log file starts empty. -/
def initState : ChatState :=
  { messages :=
      [ Msg.plain "system" "You are a polite, accurate customer support assistant.",
        Msg.plain "user" "How can I reset my password?",
        Msg.plain "assistant" "You can reset it under Account Settings → Security." ],
    display := [],
    log := [] }

/-- Session states reachable from the seeded initial state by user turns. -/
inductive Reachable : ChatState → Prop
  | init : Reachable initState
  | step (s : ChatState) (oracle : Nat → Except String RespMsg) (ts : Nat → String)
      (u : String) : Reachable s → Reachable (runTurn oracle ts u s).state

/-- Recognizer for tool-result entries in a message list. -/
def isToolMsg : Msg → Bool
  | Msg.toolMsg _ _ => true
  | _ => false

/-- Recognizer for plain assistant entries in a message list. -/
def isAssistantMsg : Msg → Bool
  | Msg.plain r _ => r == "assistant"
  | _ => false

/-- Constant timestamp oracle used for concrete evaluations. -/
def tsZero : Nat → String := fun _ => "T"

/-- Concrete oracle: first response requests two tool calls, the first
follow-up succeeds, the second raises. -/
def cexOracleA : Nat → Except String RespMsg := fun n =>
  if n = 0 then
    Except.ok ⟨ none,
      [ ⟨ "c1", "lookup_faq", [("query", "refund")] ⟩,
        ⟨ "c2", "lookup_faq", [("query", "shipping")] ⟩ ] ⟩
  else if n = 1 then Except.ok ⟨ some "First tool reply", [] ⟩
  else Except.error "boom"

/-- Concrete oracle: first response requests one tool call, every
follow-up succeeds. -/
def cexOracleB : Nat → Except String RespMsg := fun n =>
  if n = 0 then
    Except.ok ⟨ none, [ ⟨ "c1", "get_order_status", [("order_id", "ORD123")] ⟩ ] ⟩
  else Except.ok ⟨ some "Your order is on the way", [] ⟩

/-- Concrete oracle that always raises. -/
def cexOracleErr : Nat → Except String RespMsg := fun _ => Except.error "boom"

/-! ## Knowledge-store theorems -/

/-- Characterization of the `lookup_faq` loop by `List.find?`. -/
lemma lookupFaqGo_eq_find (q : String) (l : List FaqEntry) :
    lookupFaqGo q l = match l.find? (faqMatch q) with
      | some f => f.answer
      | none => "Sorry, I couldn\x27t find that information." := by
  induction l with
  | nil => rfl
  | cons f rest ih =>
      cases hf : faqMatch q f with
      | true => simp [lookupFaqGo, hf, List.find?_cons_of_pos _ hf]
      | false =>
          rw [List.find?_cons_of_neg _ (by simp [hf])]
          simp [lookupFaqGo, hf, ih]

/-- Claim C1: for every query string `q`, `lookup_faq q` returns the
answer of the first FAQ entry whose question or answer contains `q`
case-insensitively, and the fixed not-found sentinel when no entry
qualifies; being a Lean function, it is total over any input string. -/
theorem lookup_faq_first_match (q : String) :
    lookup_faq q = match faq_data.find? (faqMatch q) with
      | some f => f.answer
      | none => "Sorry, I couldn\x27t find that information." :=
  lookupFaqGo_eq_find q faq_data

/-- The formatted order-status sentence is never the not-found sentinel
(their lengths always differ). -/
lemma fmt_ne_notfound (i st eta : String) :
    "Order " ++ i ++ " is " ++ st ++ " and will arrive by " ++ eta ++ "." ≠
      "Order ID " ++ i ++ " not found." := by
  intro h
  have h2 := congrArg String.length h
  simp only [String.length_append] at h2
  have e1 : ("Order " : String).length = 6 := rfl
  have e2 : (" is " : String).length = 4 := rfl
  have e3 : (" and will arrive by " : String).length = 20 := rfl
  have e4 : ("." : String).length = 1 := rfl
  have e5 : ("Order ID " : String).length = 9 := rfl
  have e6 : (" not found." : String).length = 11 := rfl
  rw [e1, e2, e3, e4, e5, e6] at h2
  omega

/-- Characterization of the `get_order_status` loop over any row list:
it yields the sentinel exactly when no row matches, and the formatted
sentence of the first matching row otherwise. -/
lemma getOrderStatusGo_spec (i : String) (l : List OrderRecord) :
    (getOrderStatusGo i l = "Order ID " ++ i ++ " not found." ↔
      ∀ o ∈ l, ¬ orderMatch i o = true) ∧
    (∀ o, l.find? (orderMatch i) = some o →
      getOrderStatusGo i l =
        "Order " ++ i ++ " is " ++ o.status ++ " and will arrive by " ++ o.eta ++ ".") := by
  induction l with
  | nil =>
      refine ⟨ by simp [getOrderStatusGo], ?_ ⟩
      intro o h
      simp [List.find?] at h
  | cons a rest ih =>
      cases ha : orderMatch i a with
      | true =>
          have hgo : getOrderStatusGo i (a :: rest) =
              "Order " ++ i ++ " is " ++ a.status ++ " and will arrive by " ++ a.eta ++ "." := by
            simp [getOrderStatusGo, ha]
          refine ⟨ ?_, ?_ ⟩
          · rw [hgo]
            constructor
            · intro h
              exact absurd h (fmt_ne_notfound i a.status a.eta)
            · intro hall
              exact absurd ha (by simpa using hall a (by simp))
          · intro o hfind
            rw [List.find?_cons_of_pos _ ha] at hfind
            cases hfind
            exact hgo
      | false =>
          have hgo : getOrderStatusGo i (a :: rest) = getOrderStatusGo i rest := by
            simp [getOrderStatusGo, ha]
          refine ⟨ ?_, ?_ ⟩
          · rw [hgo, ih.1]
            constructor
            · intro h o ho
              rcases List.mem_cons.mp ho with rfl | ho2
              · simp [ha]
              · exact h o ho2
            · intro h o ho
              exact h o (List.mem_cons_of_mem a ho)
          · intro o hfind
            rw [List.find?_cons_of_neg _ (by simp [ha])] at hfind
            rw [hgo]
            exact ih.2 o hfind

/-- Claim C2: `get_order_status i` returns the not-found sentinel
(echoing `i`) iff no order record's id equals `i` case-insensitively;
otherwise it returns the formatted sentence embedding the matching
record's status and eta verbatim; and the two concrete scenarios of the
spec hold. -/
theorem order_status_lookup_spec (i : String) :
    (get_order_status i = "Order ID " ++ i ++ " not found." ↔
      ∀ o ∈ order_data, pyLower o.order_id ≠ pyLower i) ∧
    (∀ o, order_data.find? (orderMatch i) = some o →
      get_order_status i =
        "Order " ++ i ++ " is " ++ o.status ++ " and will arrive by " ++ o.eta ++ ".") ∧
    get_order_status "ORD124" = "Order ORD124 is Delivered and will arrive by 2025-10-22." ∧
    get_order_status "zzz" = "Order ID zzz not found." := by
  refine ⟨ ?_, (getOrderStatusGo_spec i order_data).2, by decide, by decide ⟩
  have h := (getOrderStatusGo_spec i order_data).1
  simpa [orderMatch] using h

/-- Witness for C2 at the concrete inputs of the spec scenarios. -/
theorem order_status_lookup_witness :
    get_order_status "zzz" = "Order ID zzz not found." :=
  (order_status_lookup_spec "zzz").1.mpr (by decide)

/-! ## Dialogue-engine shape lemmas -/

/-- Full characterization of the tool loop: it appends the same list of
assistant replies to both transcripts, logs one assistant entry per
reply, finishes without error exactly when every consulted completion
call succeeds (one per tool call, in order), and on a raised call stops
after logging a single error entry. -/
lemma toolLoop_shape (oracle : Nat → Except String RespMsg) (ts : Nat → String) (m : RespMsg) :
    ∀ (tcs : List ToolCall) (n : Nat) (s : ChatState),
    ∃ (replies : List String) (lt ep : List LogEntry) (reqs : List Request) (err : Option String),
      toolLoop oracle ts m tcs n s =
        (⟨ s.messages ++ replies.map (Msg.plain "assistant"),
           s.display ++ replies.map (Msg.plain "assistant"),
           s.log ++ lt ++ ep ⟩, reqs, err) ∧
      lt.map LogEntry.role = replies.map (fun _ => "assistant") ∧
      lt.map LogEntry.content = replies ∧
      (err = none ↔ ∀ k, k < tcs.length → ∃ r, oracle (n + k) = Except.ok r) ∧
      (err = none → ep = [] ∧ replies.length = tcs.length) ∧
      (∀ e, err = some e → ∃ t, ep = [⟨ t, "error", e ⟩]) := by
  intro tcs
  induction tcs with
  | nil =>
      intro n s
      refine ⟨ [], [], [], [], none, ?_, rfl, rfl, ?_, ?_, ?_ ⟩
      · simp [toolLoop]
      · simp
      · simp
      · simp
  | cons tc rest ih =>
      intro n s
      cases ho : oracle n with
      | error e =>
          refine ⟨ [], [], [⟨ ts s.log.length, "error", e ⟩],
            [⟨ s.messages ++ [Msg.model m, Msg.toolMsg tc.id (runTool tc)], false ⟩], some e,
            ?_, rfl, rfl, ?_, ?_, ?_ ⟩
          · simp [toolLoop, ho, logOnly]
          · constructor
            · intro h
              simp at h
            · intro h
              rcases h 0 (by simp) with ⟨ r, hr ⟩
              rw [Nat.add_zero, ho] at hr
              simp at hr
          · intro h
            simp at h
          · intro e2 h
            rw [Option.some_inj] at h
            subst h
            exact ⟨ ts s.log.length, rfl ⟩
      | ok second =>
          obtain ⟨ replies, lt, ep, reqs, err, heq, hrole, hcont, hiff, hnone, hsome ⟩ :=
            ih (n + 1) (appendBoth s "assistant" (pyOr second.content (runTool tc)) ts)
          refine ⟨ pyOr second.content (runTool tc) :: replies,
            ⟨ ts s.log.length, "assistant", pyOr second.content (runTool tc) ⟩ :: lt, ep,
            ⟨ s.messages ++ [Msg.model m, Msg.toolMsg tc.id (runTool tc)], false ⟩ :: reqs,
            err, ?_, ?_, ?_, ?_, ?_, ?_ ⟩
          · simp only [toolLoop, ho]
            rw [heq]
            simp [appendBoth]
          · simp [hrole]
          · simp [hcont]
          · constructor
            · intro h k hk
              cases k with
              | zero =>
                  exact ⟨ second, by simpa using ho ⟩
              | succ j =>
                  rcases hiff.mp h j (by simp at hk; omega) with ⟨ r, hr ⟩
                  refine ⟨ r, ?_ ⟩
                  rw [show n + (j + 1) = n + 1 + j by omega]
                  exact hr
            · intro h
              apply hiff.mpr
              intro k hk
              rcases h (k + 1) (by simp; omega) with ⟨ r, hr ⟩
              refine ⟨ r, ?_ ⟩
              rw [show n + 1 + k = n + (k + 1) by omega]
              exact hr
          · intro h
            obtain ⟨ hep, hlen ⟩ := hnone h
            exact ⟨ hep, by simp [hlen] ⟩
          · exact hsome

/-- Full characterization of one user turn: both transcripts gain the
user message followed by the same list of assistant replies, the log
gains one user entry, one assistant entry per reply, and one error
entry exactly when the turn errored. -/
lemma runTurn_shape (oracle : Nat → Except String RespMsg) (ts : Nat → String)
    (u : String) (s : ChatState) :
    ∃ (replies : List String) (lt ep : List LogEntry),
      (runTurn oracle ts u s).state.messages =
        s.messages ++ Msg.plain "user" u :: replies.map (Msg.plain "assistant") ∧
      (runTurn oracle ts u s).state.display =
        s.display ++ Msg.plain "user" u :: replies.map (Msg.plain "assistant") ∧
      (runTurn oracle ts u s).state.log =
        s.log ++ (⟨ ts s.log.length, "user", u ⟩ :: lt) ++ ep ∧
      lt.map LogEntry.role = replies.map (fun _ => "assistant") ∧
      lt.map LogEntry.content = replies ∧
      ((runTurn oracle ts u s).uiError = none → ep = []) ∧
      (∀ e, (runTurn oracle ts u s).uiError = some e → ∃ t, ep = [⟨ t, "error", e ⟩]) := by
  cases ho : oracle 0 with
  | error e =>
      refine ⟨ [], [], [⟨ ts (s.log.length + 1), "error", e ⟩], ?_, ?_, ?_, rfl, rfl, ?_, ?_ ⟩
      · simp [runTurn, ho, appendBoth, logOnly]
      · simp [runTurn, ho, appendBoth, logOnly]
      · simp [runTurn, ho, appendBoth, logOnly]
      · intro h
        simp [runTurn, ho] at h
      · intro e2 h
        simp [runTurn, ho] at h
        subst h
        exact ⟨ ts (s.log.length + 1), rfl ⟩
  | ok message =>
      cases hm : message.toolCalls with
      | nil =>
          refine ⟨ [pyOr message.content "No response."],
            [⟨ ts (s.log.length + 1), "assistant", pyOr message.content "No response." ⟩], [],
            ?_, ?_, ?_, rfl, rfl, ?_, ?_ ⟩
          · simp [runTurn, ho, hm, appendBoth]
          · simp [runTurn, ho, hm, appendBoth]
          · simp [runTurn, ho, hm, appendBoth]
          · intro h
            rfl
          · intro e2 h
            simp [runTurn, ho, hm] at h
      | cons tc rest =>
          obtain ⟨ replies, lt, ep, reqs, err, heq, hrole, hcont, hiff, hnone, hsome ⟩ :=
            toolLoop_shape oracle ts message (tc :: rest) 1 (appendBoth s "user" u ts)
          refine ⟨ replies, lt, ep, ?_, ?_, ?_, hrole, hcont, ?_, ?_ ⟩
          · simp only [runTurn, ho, hm]
            rw [heq]
            simp [appendBoth]
          · simp only [runTurn, ho, hm]
            rw [heq]
            simp [appendBoth]
          · simp only [runTurn, ho, hm]
            rw [heq]
            simp [appendBoth]
          · intro h
            simp only [runTurn, ho, hm] at h
            rw [heq] at h
            exact (hnone h).1
          · intro e2 h
            simp only [runTurn, ho, hm] at h
            rw [heq] at h
            exact hsome e2 h

/-! ## Turn-level claim theorems -/

/-- Claim C6: during any user turn the Conversation Log gains exactly
1 line (for the user message) + 1 per assistant reply produced + 1 if
the turn errored, and every line is written in the
`[timestamp] Role: content` format. -/
theorem turn_log_count (oracle : Nat → Except String RespMsg) (ts : Nat → String)
    (u : String) (s : ChatState) :
    ∃ (newLog : List LogEntry) (dTail : List Msg),
      (runTurn oracle ts u s).state.log = s.log ++ newLog ∧
      (runTurn oracle ts u s).state.display = s.display ++ Msg.plain "user" u :: dTail ∧
      newLog.length = 1 + dTail.length +
        (match (runTurn oracle ts u s).uiError with | some _ => 1 | none => 0) ∧
      ∀ x ∈ newLog, logLine x = "[" ++ x.ts ++ "] " ++ pyCapitalize x.role ++ ": " ++ x.content := by
  obtain ⟨ replies, lt, ep, hmsg, hdisp, hlog, hrole, hcont, hnone, hsome ⟩ :=
    runTurn_shape oracle ts u s
  refine ⟨ ⟨ ts s.log.length, "user", u ⟩ :: (lt ++ ep),
    replies.map (Msg.plain "assistant"), ?_, hdisp, ?_, ?_ ⟩
  · rw [hlog]
    simp [List.append_assoc]
  · have hl : lt.length = replies.length := by
      have h2 := congrArg List.length hcont
      simpa using h2
    cases h : (runTurn oracle ts u s).uiError with
    | none =>
        have hep := hnone h
        simp only [hep, List.append_nil, List.length_cons, List.length_append,
          List.length_map, hl]
        omega
    | some e =>
        obtain ⟨ t, hep ⟩ := hsome e h
        simp only [hep, List.length_cons, List.length_append, List.length_map, hl,
          List.length_nil]
        omega
  · intro x hx
    rfl

/-- Claim C6 witness at a concrete erroring turn. -/
theorem turn_log_count_witness :
    ∃ (newLog : List LogEntry) (dTail : List Msg),
      (runTurn cexOracleErr tsZero "hi2" initState).state.log = initState.log ++ newLog ∧
      (runTurn cexOracleErr tsZero "hi2" initState).state.display =
        initState.display ++ Msg.plain "user" "hi2" :: dTail ∧
      newLog.length = 1 + dTail.length +
        (match (runTurn cexOracleErr tsZero "hi2" initState).uiError with
          | some _ => 1 | none => 0) := by
  obtain ⟨ newLog, dTail, h1, h2, h3, _ ⟩ := turn_log_count cexOracleErr tsZero "hi2" initState
  exact ⟨ newLog, dTail, h1, h2, h3 ⟩

/-- Exact characterization of the tool loop when a follow-up call
raises: the raise happens at some index `j` after `j` successful
iterations, and the final transcripts are exactly those of the run
truncated to the first `j` tool calls — the state immediately before
the raising call — while the log gains exactly one error entry beyond
that state. -/
lemma toolLoop_error (oracle : Nat → Except String RespMsg) (ts : Nat → String) (m : RespMsg) :
    ∀ (tcs : List ToolCall) (n : Nat) (s : ChatState) (e : String),
    (toolLoop oracle ts m tcs n s).2.2 = some e →
    ∃ j, j < tcs.length ∧ oracle (n + j) = Except.error e ∧
      (∀ k, k < j → ∃ r, oracle (n + k) = Except.ok r) ∧
      (toolLoop oracle ts m tcs n s).1.display =
        (toolLoop oracle ts m (tcs.take j) n s).1.display ∧
      (toolLoop oracle ts m tcs n s).1.messages =
        (toolLoop oracle ts m (tcs.take j) n s).1.messages ∧
      ∃ t, (toolLoop oracle ts m tcs n s).1.log =
        (toolLoop oracle ts m (tcs.take j) n s).1.log ++ [⟨ t, "error", e ⟩] := by
  intro tcs
  induction tcs with
  | nil =>
      intro n s e h
      simp [toolLoop] at h
  | cons tc rest ih =>
      intro n s e h
      cases ho : oracle n with
      | error e2 =>
          have he : e2 = e := by
            simp only [toolLoop, ho, Option.some.injEq] at h
            exact h
          subst he
          refine ⟨ 0, by simp, by simpa using ho, fun k hk => absurd hk (Nat.not_lt_zero k),
            ?_, ?_, ⟨ ts s.log.length, ?_ ⟩ ⟩
          · simp [toolLoop, ho, logOnly]
          · simp [toolLoop, ho, logOnly]
          · simp [toolLoop, ho, logOnly]
      | ok second =>
          have h2 : (toolLoop oracle ts m rest (n + 1)
              (appendBoth s "assistant" (pyOr second.content (runTool tc)) ts)).2.2 = some e := by
            simp only [toolLoop, ho] at h
            exact h
          obtain ⟨ j, hj, herr, hoks, hd, hm2, t, hl ⟩ :=
            ih (n + 1) (appendBoth s "assistant" (pyOr second.content (runTool tc)) ts) e h2
          refine ⟨ j + 1, by simp only [List.length_cons]; omega, ?_, ?_, ?_, ?_, ⟨ t, ?_ ⟩ ⟩
          · rw [show n + (j + 1) = n + 1 + j by omega]
            exact herr
          · intro k hk
            cases k with
            | zero => exact ⟨ second, by simpa using ho ⟩
            | succ k2 =>
                obtain ⟨ r, hr ⟩ := hoks k2 (by omega)
                refine ⟨ r, ?_ ⟩
                rw [show n + (k2 + 1) = n + 1 + k2 by omega]
                exact hr
          · simp only [toolLoop, ho, List.take_succ_cons]
            exact hd
          · simp only [toolLoop, ho, List.take_succ_cons]
            exact hm2
          · simp only [toolLoop, ho, List.take_succ_cons]
            exact hl

/-- Claim C4: a turn in which a completion call raises is aborted with
both transcripts exactly as they stood immediately before the raising
call: if the first call raises they are exactly the prior transcripts
plus the user message, and if the follow-up call for tool call `j`
raises they are exactly the state of the run truncated to the first
`j` (successful) tool calls — the error path appends nothing to either
transcript.  The log gains exactly one error-role entry, the error is
surfaced via `uiError` (the hypothesis), and the session remains
usable for subsequent turns. -/
theorem turn_error_aborts (oracle : Nat → Except String RespMsg) (ts : Nat → String)
    (u : String) (s : ChatState) (e : String)
    (h : (runTurn oracle ts u s).uiError = some e) :
    (oracle 0 = Except.error e →
      (runTurn oracle ts u s).state.display = (appendBoth s "user" u ts).display ∧
      (runTurn oracle ts u s).state.messages = (appendBoth s "user" u ts).messages ∧
      ∃ t, (runTurn oracle ts u s).state.log =
        (appendBoth s "user" u ts).log ++ [⟨ t, "error", e ⟩]) ∧
    (∀ m, oracle 0 = Except.ok m →
      ∃ j, j < m.toolCalls.length ∧ oracle (1 + j) = Except.error e ∧
        (∀ k, k < j → ∃ r, oracle (1 + k) = Except.ok r) ∧
        (runTurn oracle ts u s).state.display =
          (toolLoop oracle ts m (m.toolCalls.take j) 1 (appendBoth s "user" u ts)).1.display ∧
        (runTurn oracle ts u s).state.messages =
          (toolLoop oracle ts m (m.toolCalls.take j) 1 (appendBoth s "user" u ts)).1.messages ∧
        ∃ t, (runTurn oracle ts u s).state.log =
          (toolLoop oracle ts m (m.toolCalls.take j) 1 (appendBoth s "user" u ts)).1.log ++
            [⟨ t, "error", e ⟩]) ∧
    (∃ tail, (runTurn oracle ts u s).state.display =
      s.display ++ Msg.plain "user" u :: tail) ∧
    List.countP (fun x => x.role == "error") (runTurn oracle ts u s).state.log =
      List.countP (fun x => x.role == "error") s.log + 1 ∧
    (∀ oracle2 u2, ∃ tail,
      (runTurn oracle2 ts u2 (runTurn oracle ts u s).state).state.display =
        (runTurn oracle ts u s).state.display ++ Msg.plain "user" u2 :: tail) := by
  refine ⟨ ?_, ?_, ?_, ?_, ?_ ⟩
  · intro ho
    refine ⟨ by simp [runTurn, ho, logOnly], by simp [runTurn, ho, logOnly],
      ⟨ ts (appendBoth s "user" u ts).log.length, by simp [runTurn, ho, logOnly] ⟩ ⟩
  · intro m hm
    cases hmt : m.toolCalls with
    | nil =>
        exfalso
        simp [runTurn, hm, hmt] at h
    | cons tc rest =>
        have hloop : (toolLoop oracle ts m (tc :: rest) 1 (appendBoth s "user" u ts)).2.2 =
            some e := by
          simp only [runTurn, hm, hmt] at h
          exact h
        obtain ⟨ j, hj, herr, hoks, hd, hm2, t, hl ⟩ :=
          toolLoop_error oracle ts m (tc :: rest) 1 (appendBoth s "user" u ts) e hloop
        refine ⟨ j, hj, herr, hoks, ?_, ?_, ⟨ t, ?_ ⟩ ⟩
        · simp only [runTurn, hm, hmt]
          exact hd
        · simp only [runTurn, hm, hmt]
          exact hm2
        · simp only [runTurn, hm, hmt]
          exact hl
  · obtain ⟨ replies, lt, ep, hmsg, hdisp, hlog, hrole, hcont, hnone, hsome ⟩ :=
      runTurn_shape oracle ts u s
    exact ⟨ replies.map (Msg.plain "assistant"), hdisp ⟩
  · obtain ⟨ replies, lt, ep, hmsg, hdisp, hlog, hrole, hcont, hnone, hsome ⟩ :=
      runTurn_shape oracle ts u s
    obtain ⟨ t2, hep ⟩ := hsome e h
    have hall : ∀ x ∈ lt, x.role = "assistant" := by
      intro x hx
      have hmem : x.role ∈ lt.map LogEntry.role := List.mem_map_of_mem _ hx
      rw [hrole] at hmem
      rcases List.mem_map.mp hmem with ⟨ r, _, hr ⟩
      exact hr.symm
    have hlt0 : List.countP (fun x => x.role == "error") lt = 0 := by
      apply List.countP_eq_zero.mpr
      intro x hx
      simp [hall x hx]
    rw [hlog, hep]
    simp [List.countP_append, List.countP_cons, hlt0]
  · intro oracle2 u2
    obtain ⟨ replies2, lt2, ep2, hmsg2, hdisp2, _ ⟩ :=
      runTurn_shape oracle2 ts u2 (runTurn oracle ts u s).state
    exact ⟨ replies2.map (Msg.plain "assistant"), hdisp2 ⟩

/-- Claim C4 witness at a concrete turn whose second follow-up call
raises. -/
theorem turn_error_aborts_witness :
    (∃ tail, (runTurn cexOracleA tsZero "hi" initState).state.display =
      initState.display ++ Msg.plain "user" "hi" :: tail) ∧
    List.countP (fun x => x.role == "error")
      (runTurn cexOracleA tsZero "hi" initState).state.log =
      List.countP (fun x => x.role == "error") initState.log + 1 := by
  obtain ⟨ h1, h2, h3, h4, h5 ⟩ :=
    turn_error_aborts cexOracleA tsZero "hi" initState "boom" (by decide)
  exact ⟨ h3, h4 ⟩

/-- Counterexample to claim C3 as stated: with a first response carrying
two tool-call requests whose second follow-up call raises, the turn
appends only one assistant entry (not two); and even in the fully
successful one-tool-call turn the stored transcript contains no
tool-result message at all (tool-result messages exist only inside the
follow-up request payloads). -/
theorem toolcall_turn_cex :
    cexOracleA 0 = Except.ok ⟨ none,
      [ ⟨ "c1", "lookup_faq", [("query", "refund")] ⟩,
        ⟨ "c2", "lookup_faq", [("query", "shipping")] ⟩ ] ⟩ ∧
    List.countP isAssistantMsg (runTurn cexOracleA tsZero "hi" initState).state.display
      - List.countP isAssistantMsg initState.display = 1 ∧
    ¬ (List.countP isAssistantMsg (runTurn cexOracleA tsZero "hi" initState).state.display
      - List.countP isAssistantMsg initState.display = 2) ∧
    cexOracleB 0 = Except.ok ⟨ none,
      [ ⟨ "c1", "get_order_status", [("order_id", "ORD123")] ⟩ ] ⟩ ∧
    List.countP isAssistantMsg (runTurn cexOracleB tsZero "hi" initState).state.display
      - List.countP isAssistantMsg initState.display = 1 ∧
    List.countP isToolMsg (runTurn cexOracleB tsZero "hi" initState).state.messages = 0 := by
  refine ⟨ rfl, ?_, ?_, rfl, ?_, ?_ ⟩ <;> decide

/-- Claim C3 as amended: if the first completion response carries
N ≥ 1 tool-call requests and every follow-up completion call succeeds,
the turn appends exactly N assistant entries to each transcript (one
per resolved tool call, processed sequentially in the order received,
no merging), and the stored transcript receives no tool-result
entries (its tool-message count is unchanged). -/
theorem toolcall_turn_appends (oracle : Nat → Except String RespMsg) (ts : Nat → String)
    (u : String) (s : ChatState) (m : RespMsg)
    (h0 : oracle 0 = Except.ok m) (hne : m.toolCalls ≠ [])
    (hok : ∀ k, k < m.toolCalls.length → ∃ r, oracle (1 + k) = Except.ok r) :
    ∃ replies : List String,
      replies.length = m.toolCalls.length ∧
      (runTurn oracle ts u s).state.messages =
        s.messages ++ Msg.plain "user" u :: replies.map (Msg.plain "assistant") ∧
      (runTurn oracle ts u s).state.display =
        s.display ++ Msg.plain "user" u :: replies.map (Msg.plain "assistant") ∧
      List.countP isToolMsg (runTurn oracle ts u s).state.messages =
        List.countP isToolMsg s.messages := by
  cases hm : m.toolCalls with
  | nil => exact absurd hm hne
  | cons tc rest =>
      obtain ⟨ replies, lt, ep, reqs, err, heq, hrole, hcont, hiff, hnone, hsome ⟩ :=
        toolLoop_shape oracle ts m (tc :: rest) 1 (appendBoth s "user" u ts)
      have herr : err = none := by
        apply hiff.mpr
        intro k hk
        apply hok k
        rw [hm]
        exact hk
      obtain ⟨ hep, hlen ⟩ := hnone herr
      have hmsg : (runTurn oracle ts u s).state.messages =
          s.messages ++ Msg.plain "user" u :: replies.map (Msg.plain "assistant") := by
        simp only [runTurn, h0, hm]
        rw [heq]
        simp [appendBoth]
      refine ⟨ replies, hlen, hmsg, ?_, ?_ ⟩
      · simp only [runTurn, h0, hm]
        rw [heq]
        simp [appendBoth]
      · rw [hmsg]
        simp [List.countP_append, List.countP_cons, isToolMsg, List.countP_map]

/-- Claim C3 (amended) witness at a concrete one-tool-call turn. -/
theorem toolcall_turn_appends_witness :
    ∃ replies : List String,
      replies.length = 1 ∧
      (runTurn cexOracleB tsZero "hiw" initState).state.messages =
        initState.messages ++ Msg.plain "user" "hiw" :: replies.map (Msg.plain "assistant") ∧
      (runTurn cexOracleB tsZero "hiw" initState).state.display =
        initState.display ++ Msg.plain "user" "hiw" :: replies.map (Msg.plain "assistant") ∧
      List.countP isToolMsg (runTurn cexOracleB tsZero "hiw" initState).state.messages =
        List.countP isToolMsg initState.messages := by
  have h := toolcall_turn_appends cexOracleB tsZero "hiw" initState
    ⟨ none, [ ⟨ "c1", "get_order_status", [("order_id", "ORD123")] ⟩ ] ⟩ rfl (by decide)
    (fun k hk => ⟨ ⟨ some "Your order is on the way", [] ⟩, by simp [cexOracleB] ⟩)
  simpa using h

/-- Reachability invariant: the session transcript always equals the
seeded initial transcript followed by exactly the display transcript,
and every display entry is a plain user or assistant message. -/
lemma reach_shape (s : ChatState) (h : Reachable s) :
    s.messages = initState.messages ++ s.display ∧
    ∀ x ∈ s.display, ∃ c, x = Msg.plain "user" c ∨ x = Msg.plain "assistant" c := by
  induction h with
  | init => simp [initState]
  | step s0 oracle ts u _ ih =>
      obtain ⟨ replies, lt, ep, hmsg, hdisp, _ ⟩ := runTurn_shape oracle ts u s0
      constructor
      · rw [hmsg, hdisp, ih.1, List.append_assoc]
      · rw [hdisp]
        intro x hx
        rcases List.mem_append.mp hx with hx0 | hx1
        · exact ih.2 x hx0
        · rcases List.mem_cons.mp hx1 with rfl | hx2
          · exact ⟨ u, Or.inl rfl ⟩
          · rcases List.mem_map.mp hx2 with ⟨ r, _, rfl ⟩
            exact ⟨ r, Or.inr rfl ⟩

/-- Counterexample to claim C5 as stated: already at the (reachable)
seeded session start, the transcript contains a user-role entry with no
corresponding display entry, and "user" is neither a system nor a tool
role — so the two sequences do not differ only in system/tool-role
bookkeeping entries. -/
theorem transcript_display_cex :
    Reachable initState ∧
    Msg.plain "user" "How can I reset my password?" ∈ initState.messages ∧
    Msg.plain "user" "How can I reset my password?" ∉ initState.display ∧
    "user" ≠ "system" ∧ "user" ≠ "tool" :=
  ⟨ Reachable.init, by decide, by decide, by decide, by decide ⟩

/-- Claim C5 as amended: at every reachable session state the
transcript equals the fixed three-entry seed (system directive plus
example user/assistant pair) followed by exactly the display
transcript — so every user message appended during a turn appears in
both, every display entry appears in the transcript, and the two
sequences differ only in the seed; tool-role entries never enter
either. -/
theorem transcript_display_sync (s : ChatState) (h : Reachable s) :
    s.messages = initState.messages ++ s.display ∧
    ∀ x ∈ s.display, ∃ c, x = Msg.plain "user" c ∨ x = Msg.plain "assistant" c :=
  reach_shape s h

/-- Claim C5 (amended) witness after one concrete turn. -/
theorem transcript_display_sync_witness :
    (runTurn cexOracleB tsZero "hello" initState).state.messages =
      initState.messages ++ (runTurn cexOracleB tsZero "hello" initState).state.display :=
  (transcript_display_sync _
    (Reachable.step initState cexOracleB tsZero "hello" Reachable.init)).1

/-- Claim C10: every entry ever present in the display transcript has
role user or assistant; system, tool and error content never appears
there. -/
theorem display_roles_user_assistant (s : ChatState) (h : Reachable s) :
    s.display.all (fun x => match x with
      | Msg.plain r _ => r == "user" || r == "assistant"
      | _ => false) = true := by
  rw [List.all_eq_true]
  intro x hx
  rcases (reach_shape s h).2 x hx with ⟨ c, rfl | rfl ⟩ <;> rfl

/-- Claim C10 witness after one concrete turn. -/
theorem display_roles_user_assistant_witness :
    ((runTurn cexOracleB tsZero "hey" initState).state.display.all (fun x => match x with
      | Msg.plain r _ => r == "user" || r == "assistant"
      | _ => false)) = true :=
  display_roles_user_assistant _
    (Reachable.step initState cexOracleB tsZero "hey" Reachable.init)

/-- The empty character list is a contiguous sublist of every list. -/
lemma hasSub_nil (l : List Char) : hasSub [] l = true := by
  cases l with
  | nil => rfl
  | cons h t => simp [hasSub, leadsWith]

/-- Claim C7: tool-name resolution ranges over exactly the two tools of
the catalog; an unknown function name yields the fixed
"Tool not implemented." result string, a missing expected argument key
defaults to the empty string with no schema-validation error, and in
both cases the turn proceeds normally (a successful follow-up call
still appends an assistant reply and the loop reports no error). -/
theorem tool_dispatch_spec (tc : ToolCall) :
    ((∀ t ∈ tools, tc.name ≠ t.name) → runTool tc = "Tool not implemented.") ∧
    (tc.name = "lookup_faq" → tc.args.lookup "query" = none → runTool tc = lookup_faq "") ∧
    (tc.name = "get_order_status" → tc.args.lookup "order_id" = none →
      runTool tc = get_order_status "") ∧
    (∀ (oracle : Nat → Except String RespMsg) (ts : Nat → String) (m : RespMsg) (n : Nat)
      (s : ChatState) (r : RespMsg), oracle n = Except.ok r →
      (toolLoop oracle ts m [tc] n s).2.2 = none ∧
      ∃ tail, (toolLoop oracle ts m [tc] n s).1.display =
        s.display ++ Msg.plain "assistant" (pyOr r.content (runTool tc)) :: tail) := by
  refine ⟨ ?_, ?_, ?_, ?_ ⟩
  · intro h
    have h1 : tc.name ≠ "lookup_faq" := h ⟨ "lookup_faq", ["query"] ⟩ (by simp [tools])
    have h2 : tc.name ≠ "get_order_status" := h ⟨ "get_order_status", ["order_id"] ⟩ (by simp [tools])
    simp [runTool, h1, h2]
  · intro h1 h2
    simp [runTool, h1, argGet, h2]
  · intro h1 h2
    simp [runTool, h1, argGet, h2]
  · intro oracle ts m n s r hr
    constructor
    · simp [toolLoop, hr]
    · refine ⟨ [], ?_ ⟩
      simp [toolLoop, hr, appendBoth]

/-- Claim C7 witness at concrete tool calls (unknown name, missing
argument keys, and an unaffected turn). -/
theorem tool_dispatch_spec_witness :
    runTool ⟨ "i1", "frobnicate", [] ⟩ = "Tool not implemented." ∧
    runTool ⟨ "i2", "lookup_faq", [] ⟩ = lookup_faq "" ∧
    runTool ⟨ "i3", "get_order_status", [] ⟩ = get_order_status "" ∧
    (toolLoop (fun _ => Except.ok ⟨ some "fine", [] ⟩) tsZero ⟨ none, [] ⟩
      [⟨ "i4", "get_order_status", [] ⟩] 0 initState).2.2 = none :=
  ⟨ (tool_dispatch_spec ⟨ "i1", "frobnicate", [] ⟩).1 (by decide),
    (tool_dispatch_spec ⟨ "i2", "lookup_faq", [] ⟩).2.1 rfl rfl,
    (tool_dispatch_spec ⟨ "i3", "get_order_status", [] ⟩).2.2.1 rfl rfl,
    ((tool_dispatch_spec ⟨ "i4", "get_order_status", [] ⟩).2.2.2
      (fun _ => Except.ok ⟨ some "fine", [] ⟩) tsZero ⟨ none, [] ⟩ 0 initState
      ⟨ some "fine", [] ⟩ rfl).1 ⟩

/-- Claim C8: for every tool call handled in a turn, the follow-up
completion request consists of the session transcript as it stands when
that call is handled, plus the model's tool-call-bearing message, plus
one tool-result message carrying the originating call's id and the
result string; it is issued without the tool catalog attached
(`withTools = false`), and the adopted reply equals the follow-up
response's text content, falling back to the raw tool result string
when that content is empty or absent. -/
theorem followup_request_spec (oracle : Nat → Except String RespMsg) (ts : Nat → String)
    (m : RespMsg) (tc : ToolCall) (rest : List ToolCall) (n : Nat) (s : ChatState)
    (second : RespMsg) (h : oracle n = Except.ok second) :
    ∃ (s3 : ChatState) (reqs : List Request) (err : Option String) (tail : List Msg),
      toolLoop oracle ts m (tc :: rest) n s =
        (s3, ⟨ s.messages ++ [Msg.model m, Msg.toolMsg tc.id (runTool tc)], false ⟩ :: reqs, err) ∧
      s3.display = s.display ++ Msg.plain "assistant" (pyOr second.content (runTool tc)) :: tail ∧
      (∀ c, second.content = some c → c ≠ "" → pyOr second.content (runTool tc) = c) ∧
      ((second.content = none ∨ second.content = some "") →
        pyOr second.content (runTool tc) = runTool tc) := by
  obtain ⟨ replies, lt, ep, reqs, err, heq, _, _, _, _, _ ⟩ :=
    toolLoop_shape oracle ts m rest (n + 1)
      (appendBoth s "assistant" (pyOr second.content (runTool tc)) ts)
  refine ⟨ ⟨ (appendBoth s "assistant" (pyOr second.content (runTool tc)) ts).messages ++
        replies.map (Msg.plain "assistant"),
      (appendBoth s "assistant" (pyOr second.content (runTool tc)) ts).display ++
        replies.map (Msg.plain "assistant"),
      (appendBoth s "assistant" (pyOr second.content (runTool tc)) ts).log ++ lt ++ ep ⟩,
    reqs, err, replies.map (Msg.plain "assistant"), ?_, ?_, ?_, ?_ ⟩
  · simp only [toolLoop, h]
    rw [heq]
  · simp [appendBoth]
  · intro c hc hne
    simp [pyOr, hc, hne]
  · intro hc
    rcases hc with hc | hc <;> simp [pyOr, hc]

/-- Claim C8 witness at a concrete tool call and follow-up response. -/
theorem followup_request_spec_witness :
    ∃ (s3 : ChatState) (reqs : List Request) (err : Option String) (tail : List Msg),
      toolLoop cexOracleB tsZero ⟨ none, [] ⟩
        [⟨ "c9", "lookup_faq", [("query", "refund")] ⟩] 1 initState =
        (s3, ⟨ initState.messages ++ [Msg.model ⟨ none, [] ⟩,
          Msg.toolMsg "c9" "Refunds are available within 30 days of purchase."], false ⟩ :: reqs,
          err) ∧
      s3.display = Msg.plain "assistant" "Your order is on the way" :: tail := by
  obtain ⟨ s3, reqs, err, tail, h1, h2, h3, h4 ⟩ :=
    followup_request_spec cexOracleB tsZero ⟨ none, [] ⟩
      ⟨ "c9", "lookup_faq", [("query", "refund")] ⟩ [] 1 initState
      ⟨ some "Your order is on the way", [] ⟩ rfl
  exact ⟨ s3, reqs, err, tail, h1, h2 ⟩

/-- Claim C9: the empty string is a case-insensitive substring of every
string, so `lookup_faq ""` matches the first FAQ entry and returns its
answer (never the not-found sentinel), and hence a `lookup_faq` tool
call whose argument object is missing the `query` key (defaulted to
`""`) silently yields that first answer. -/
theorem empty_query_first_answer :
    lookup_faq "" = "Go to Account Settings → Security → Reset Password." ∧
    lookup_faq "" ≠ "Sorry, I couldn\x27t find that information." ∧
    (∀ s : String, pyContains (pyLower "") (pyLower s) = true) ∧
    (∀ (id : String) (args : List (String × String)), args.lookup "query" = none →
      runTool ⟨ id, "lookup_faq", args ⟩ =
        "Go to Account Settings → Security → Reset Password.") := by
  refine ⟨ by decide, by decide, ?_, ?_ ⟩
  · intro s
    exact hasSub_nil (pyLower s).data
  · intro id args h
    have hq : argGet args "query" = "" := by simp [argGet, h]
    rw [show runTool ⟨ id, "lookup_faq", args ⟩ = lookup_faq (argGet args "query") from rfl, hq]
    decide

/-- Claim C9 witness at a concrete argument object missing the
`query` key. -/
theorem empty_query_first_answer_witness :
    runTool ⟨ "w1", "lookup_faq", [("order_id", "x")] ⟩ =
      "Go to Account Settings → Security → Reset Password." :=
  empty_query_first_answer.2.2.2 "w1" [("order_id", "x")] rfl
